import Mathlib

/-!
Verification of the `model_inspect` remote safetensors header-inspection core
(`src/model_inspect/cli.py`) against its specification.

The Python code is shallowly embedded: pure computations become Lean
functions; HTTP traffic is an oracle mapping each logical fetch request
(filename plus optional `Range` header) to the bytes of the eventual
successful response or to the exception that `get_file_response` raises;
Python exceptions become an `Except` monad over an explicit exception type;
Python `dict`s (which preserve insertion order) become association lists.
Machine-level concerns are faithful: Python integers are arbitrary precision,
so sizes and the header length are `Nat`; `struct.unpack('<Q', b)` demands a
buffer of exactly 8 bytes and errors otherwise.
-/

namespace ModelInspect

/-- Python exceptions that the code under `src/model_inspect/cli.py` can raise
on the modelled paths. `httpError` is `requests.HTTPError` from
`raise_for_status`; `retryError` and `connError` are the exceptions the
urllib3 retry layer raises when its internal retries are exhausted;
`structError` is `struct.error` from `struct.unpack('<Q', ...)`;
`valueError` carries the messages raised in `parse_single_file`;
`jsonDecodeError` is `json.JSONDecodeError`; `keyError` is a Python
`KeyError` from a dict subscript. -/
inductive Exn where
  | httpError (status : Nat)
  | retryError
  | connError
  | structError
  | valueError (msg : String)
  | jsonDecodeError
  | keyError (key : String)
  deriving DecidableEq, Repr

/-- The value of one tensor entry of a decoded safetensors header:
`{"dtype": ..., "shape": [...]}`. The spec fixes shape entries to be
non-negative integers, hence `Nat`. -/
structure TensorInfo where
  dtype : String
  shape : List Nat
  deriving DecidableEq, Repr

/-- A decoded safetensors header: the JSON object as an ordered mapping from
tensor name to its `TensorInfo` (Python `dict`s preserve insertion order, so
an association list). A `"__metadata__"` key may appear like any other key. -/
abbrev Hdr : Type := List (String × TensorInfo)

/-- One element of the list returned by `get_model_layers`: the dict
`{"name": ..., "shape": ..., "dtype": ..., "size": ...}`. -/
structure TensorRecord where
  name : String
  shape : List Nat
  dtype : String
  size : Nat
  deriving DecidableEq, Repr

/-- The `DTYPE_BYTES` table of `cli.py` (lines 29-49), verbatim: canonical
safetensors dtype tags followed by the lowercase aliases. -/
def DTYPE_BYTES : List (String × Nat) :=
  [("F32", 4), ("F16", 2), ("BF16", 2), ("I64", 8), ("I32", 4), ("I16", 2),
   ("I8", 1), ("U8", 1), ("BOOL", 1),
   ("float32", 4), ("float16", 2), ("bfloat16", 2), ("int64", 8),
   ("int32", 4), ("int16", 2), ("int8", 1), ("uint8", 1), ("bool", 1)]

/-- Models `DTYPE_BYTES.get(dtype, 1)`: dict lookup with default 1. -/
def dtypeBytesGet (d : String) : Nat :=
  (DTYPE_BYTES.lookup d).getD 1

/-- Models `math.prod(shape) * DTYPE_BYTES.get(dtype, 1)` — the tensor size
computation shared by both branches of `get_model_layers`
(cli.py lines 167 and 186). Python integers are arbitrary precision,
so this is exact `Nat` arithmetic. -/
def tensorSize (info : TensorInfo) : Nat :=
  info.shape.prod * dtypeBytesGet info.dtype

/-- The record dict built for one tensor (cli.py lines 170-175 / 182-187). -/
def mkRecord (name : String) (info : TensorInfo) : TensorRecord :=
  { name := name, shape := info.shape, dtype := info.dtype,
    size := tensorSize info }

/-- The single-file branch of `get_model_layers` (cli.py lines 182-187):
`[{...} for name, info in header.items() if name != "__metadata__"]`. -/
def buildSingle (header : Hdr) : List TensorRecord :=
  (header.filter (fun p => p.1 != "__metadata__")).map
    (fun p => mkRecord p.1 p.2)

/-! ### `sorted(set(...))` on strings

Python's `sorted` on `str` orders lexicographically by Unicode code points.
We model it with an executable strict lexicographic order on the lists of
character codes, and `sorted(set(l))` as an insert-into-sorted-without-
duplicates fold, proving below that the result is strictly sorted (hence
duplicate-free) and has the same members as `l`. -/

/-- Strict lexicographic order on code lists. -/
def lexLt : List Nat → List Nat → Bool
  | [], [] => false
  | [], _ :: _ => true
  | _ :: _, [] => false
  | a :: as, b :: bs => decide (a < b) || (decide (a = b) && lexLt as bs)

/-- The Unicode code points of a string. -/
def strCodes (s : String) : List Nat := s.data.map Char.toNat

/-- Python's `<` on strings: lexicographic by code point. -/
def strLt (a b : String) : Bool := lexLt (strCodes a) (strCodes b)

/-- Insert into a strictly sorted list, dropping an existing duplicate. -/
def insSD (x : String) : List String → List String
  | [] => [x]
  | y :: ys =>
    if x = y then y :: ys
    else if strLt x y then x :: y :: ys
    else y :: insSD x ys

/-- Models `sorted(set(l))` for a list of strings. -/
def sortedDedup (l : List String) : List String := l.foldr insSD []

/-- Models `sorted(set(index["weight_map"].values()))` (cli.py line 138). -/
def shardFilesOf (wm : List (String × String)) : List String :=
  sortedDedup (wm.map Prod.snd)

/-- The sharded-branch loop body of `get_model_layers` (cli.py lines
163-176): iterate `weight_map` in its original order; `headers[filename]`
raises `KeyError` when the filename is absent; emit a record when
`tensor_name in header`, otherwise skip silently. An exception anywhere in
the loop discards the whole list, so the loop is modelled in `Except`. -/
def buildSharded (wm : List (String × String)) (headers : List (String × Hdr)) :
    Except Exn (List TensorRecord) :=
  match wm with
  | [] => .ok []
  | (tensorName, filename) :: rest =>
    match headers.lookup filename with
    | none => .error (.keyError filename)
    | some header =>
      match header.lookup tensorName with
      | none => buildSharded rest headers
      | some info =>
        match buildSharded rest headers with
        | .error e => .error e
        | .ok tail => .ok (mkRecord tensorName info :: tail)

/-! ### Byte-level documents and `json.loads`

The remote files carry JSON text. We model document bytes as `List Nat` and
`json.loads` (restricted to the two document schemas the code reads: a
safetensors header object, and the index object whose values are
string-to-string maps) as a total executable decoder over a concrete
injective serialization. Like `json.loads`, the decoder fails unless the
bytes encode exactly one complete document — trailing bytes are an error,
which is what makes a full-file 200 response unparseable. -/

/-- Reads one byte. -/
def decByte : List Nat → Option (Nat × List Nat)
  | [] => none
  | b :: rest => some (b, rest)

/-- Reads `n` characters. -/
def decChars : Nat → List Nat → Option (List Char × List Nat)
  | 0, bs => some ([], bs)
  | n + 1, bs => do
    let (c, bs1) ← decByte bs
    let (cs, bs2) ← decChars n bs1
    pure (Char.ofNat c :: cs, bs2)

/-- Reads a length-prefixed string. -/
def decStr (bs : List Nat) : Option (String × List Nat) := do
  let (n, bs1) ← decByte bs
  let (cs, bs2) ← decChars n bs1
  pure (String.mk cs, bs2)

/-- Reads `n` items with a given item decoder. -/
def decCount (dec : List Nat → Option (α × List Nat)) :
    Nat → List Nat → Option (List α × List Nat)
  | 0, bs => some ([], bs)
  | n + 1, bs => do
    let (a, bs1) ← dec bs
    let (as, bs2) ← decCount dec n bs1
    pure (a :: as, bs2)

/-- Reads a count-prefixed list. -/
def decList (dec : List Nat → Option (α × List Nat)) (bs : List Nat) :
    Option (List α × List Nat) := do
  let (n, bs1) ← decByte bs
  decCount dec n bs1

/-- Reads one `{"dtype": ..., "shape": [...]}` object. -/
def decTensorInfo (bs : List Nat) : Option (TensorInfo × List Nat) := do
  let (d, bs1) ← decStr bs
  let (sh, bs2) ← decList decByte bs1
  pure ({ dtype := d, shape := sh }, bs2)

/-- Reads one header entry: tensor name, then its info. -/
def decHdrEntry (bs : List Nat) : Option ((String × TensorInfo) × List Nat) := do
  let (n, bs1) ← decStr bs
  let (ti, bs2) ← decTensorInfo bs1
  pure ((n, ti), bs2)

/-- Models `json.loads` on a safetensors header document: the whole byte
list must encode exactly one header object. -/
def jsonLoadsHdr (bs : List Nat) : Except Exn Hdr :=
  match decList decHdrEntry bs with
  | some (h, []) => .ok h
  | _ => .error .jsonDecodeError

/-- The index file's JSON object: keys (`"metadata"`, `"weight_map"`, ...)
mapped to string-to-string objects. -/
abbrev IndexDoc : Type := List (String × List (String × String))

/-- Reads one string-to-string entry. -/
def decStrPair (bs : List Nat) : Option ((String × String) × List Nat) := do
  let (a, bs1) ← decStr bs
  let (b, bs2) ← decStr bs1
  pure ((a, b), bs2)

/-- Reads one index-document entry. -/
def decIndexEntry (bs : List Nat) :
    Option ((String × List (String × String)) × List Nat) := do
  let (k, bs1) ← decStr bs
  let (m, bs2) ← decList decStrPair bs1
  pure ((k, m), bs2)

/-- Models `json.loads` on the index document. -/
def jsonLoadsIndex (bs : List Nat) : Except Exn IndexDoc :=
  match decList decIndexEntry bs with
  | some (d, []) => .ok d
  | _ => .error .jsonDecodeError

/-! Matching encoders, used only to build concrete remote-file bytes for
witnesses and counterexamples. -/

/-- Encodes a length-prefixed string. -/
def encStr (s : String) : List Nat := s.data.length :: s.data.map Char.toNat

/-- Encodes a count-prefixed list. -/
def encList (enc : α → List Nat) (xs : List α) : List Nat :=
  xs.length :: (xs.map enc).flatten

/-- Encodes one tensor-info object. -/
def encTensorInfo (ti : TensorInfo) : List Nat :=
  encStr ti.dtype ++ encList (fun n => [n]) ti.shape

/-- Encodes a header document. -/
def encHdr (h : Hdr) : List Nat :=
  encList (fun p => encStr p.1 ++ encTensorInfo p.2) h

/-- Encodes an index document. -/
def encIndex (d : IndexDoc) : List Nat :=
  encList (fun p => encStr p.1 ++ encList (fun q => encStr q.1 ++ encStr q.2) p.2) d

/-- Encodes a `Nat` as 8 little-endian bytes (the safetensors length
prefix). -/
def encU64LE (n : Nat) : List Nat :=
  (List.range 8).map (fun i => n / 256 ^ i % 256)

/-! ### The fetch oracle and `parse_single_file`

`parse_single_file` and `parse_sharded_index` interact with the network
only through `get_file_response`, which either returns a successful
response or raises. For a fixed repo, revision and mirror we model that
interface as an oracle from (filename, optional `Range` header value) to
the response content or the raised exception. Each logical call carries the
timeout/retries/backoff arguments its call site passes to
`get_file_response`; `parse_single_file` (cli.py lines 104 and 115) and the
index fetch (line 130) omit them, so those call sites use the module
defaults. -/

/-- Default scalars of cli.py lines 25-27. -/
def DEFAULT_TIMEOUT : Nat := 30

/-- Default retry count (cli.py line 26). -/
def DEFAULT_RETRIES : Nat := 3

/-- Default backoff base in seconds (cli.py line 27). -/
def DEFAULT_BACKOFF : ℚ := 1

/-- The filename constants of cli.py lines 17-18. -/
def SAFETENSORS_FILE : String := "model.safetensors"

/-- The sharded-index filename constant (cli.py line 18). -/
def SAFETENSORS_INDEX_FILE : String := "model.safetensors.index.json"

/-- One logical `get_file_response` invocation: the filename, the `Range`
header value (if any), and the timeout/retries/backoff arguments the call
site passed. -/
structure HttpCall where
  filename : String
  range : Option String
  timeout : Nat
  retries : Nat
  backoff : ℚ
  deriving DecidableEq, Repr

/-- The fetch oracle: what `get_file_response` yields for each (filename,
range) pair — response bytes, or the exception it raises. -/
abbrev Net : Type := String → Option String → Except Exn (List Nat)

/-- Models `struct.unpack('<Q', content)[0]`: demands exactly 8 bytes and
reads them as an unsigned little-endian 64-bit integer (Python raises
`struct.error` on any other buffer length). -/
def unpackU64LE (bs : List Nat) : Except Exn Nat :=
  if bs.length = 8 then
    .ok (bs.foldr (fun b acc => b + 256 * acc) 0)
  else
    .error .structError

/-- Models `parse_single_file` (cli.py lines 99-123): fetch bytes 0-7,
unpack the little-endian length `L`, reject `L > 25_000_000` with
`ValueError("Header too large")`, fetch bytes `8..8+L-1`, and `json.loads`
the body (re-raising a JSON failure as `ValueError("Invalid JSON
header")`). Returns the result together with the trace of logical fetch
calls issued. -/
def parse_single_file (net : Net) (filename : String) :
    Except Exn Hdr × List HttpCall :=
  let call1 : HttpCall :=
    ⟨filename, some "bytes=0-7", DEFAULT_TIMEOUT, DEFAULT_RETRIES, DEFAULT_BACKOFF⟩
  match net filename call1.range with
  | .error e => (.error e, [call1])
  | .ok content1 =>
    match unpackU64LE content1 with
    | .error e => (.error e, [call1])
    | .ok headerLength =>
      if headerLength > 25000000 then
        (.error (.valueError "Header too large"), [call1])
      else
        let rangeHeader := s!"bytes=8-{8 + headerLength - 1}"
        let call2 : HttpCall :=
          ⟨filename, some rangeHeader, DEFAULT_TIMEOUT, DEFAULT_RETRIES, DEFAULT_BACKOFF⟩
        match net filename call2.range with
        | .error e => (.error e, [call1, call2])
        | .ok content2 =>
          match jsonLoadsHdr content2 with
          | .error _ => (.error (.valueError "Invalid JSON header"), [call1, call2])
          | .ok header => (.ok header, [call1, call2])

/-! ### `parse_sharded_index` and `get_model_layers`

`parse_sharded_index` (cli.py lines 125-153) dispatches one
`parse_single_file` per distinct shard filename into a thread pool and
collects results with `as_completed`: the `headers` dict is filled in
completion order, and the first `future.result()` that raises aborts the
collection. The completion order is scheduler-chosen; we model it as an
explicit `order` parameter — theorems about runs constrain it to be a
permutation of the dispatched (sorted, deduplicated) shard filenames. -/

/-- Collects shard headers in completion order `order`; the first failing
decode raises out of the loop (cli.py lines 148-151). Also returns the
logical fetch calls issued. -/
def collectShardHeaders (net : Net) : List String →
    Except Exn (List (String × Hdr)) × List HttpCall
  | [] => (.ok [], [])
  | f :: rest =>
    let pr := parse_single_file net f
    match pr.1 with
    | .error e => (.error e, pr.2)
    | .ok h =>
      let cr := collectShardHeaders net rest
      match cr.1 with
      | .error e => (.error e, pr.2 ++ cr.2)
      | .ok hs => (.ok ((f, h) :: hs), pr.2 ++ cr.2)

/-- Models `parse_sharded_index` (cli.py lines 125-153): fetch the index
file (no `Range` header, default timeout/retries/backoff), `json.loads` it,
read `index["weight_map"]` (a `KeyError` if absent, raised at line 138),
then decode every shard header. Returns the parsed index document and the
collected headers, plus the fetch-call trace. -/
def parse_sharded_index (net : Net) (order : List String) :
    Except Exn (IndexDoc × List (String × Hdr)) × List HttpCall :=
  let idxCall : HttpCall :=
    ⟨SAFETENSORS_INDEX_FILE, none, DEFAULT_TIMEOUT, DEFAULT_RETRIES, DEFAULT_BACKOFF⟩
  match net SAFETENSORS_INDEX_FILE none with
  | .error e => (.error e, [idxCall])
  | .ok content =>
    match jsonLoadsIndex content with
    | .error e => (.error e, [idxCall])
    | .ok doc =>
      match doc.lookup "weight_map" with
      | none => (.error (.keyError "weight_map"), [idxCall])
      | some _ =>
        let cr := collectShardHeaders net order
        match cr.1 with
        | .error e => (.error e, idxCall :: cr.2)
        | .ok headers => (.ok (doc, headers), idxCall :: cr.2)

/-- The body of the `try` block of `get_model_layers` (cli.py lines
157-176): resolve the sharded index, then iterate
`index["weight_map"].items()` building the records. Any exception escaping
this block triggers the fallback. -/
def shardedAttempt (net : Net) (order : List String) :
    Except Exn (List TensorRecord) × List HttpCall :=
  let pr := parse_sharded_index net order
  match pr.1 with
  | .error e => (.error e, pr.2)
  | .ok dh =>
    match dh.1.lookup "weight_map" with
    | none => (.error (.keyError "weight_map"), pr.2)
    | some wm => (buildSharded wm dh.2, pr.2)

/-- Models `get_model_layers` (cli.py lines 155-187): try the sharded path;
on any exception fall back to single-file parsing of `model.safetensors`,
whose own failure (if any) is the error surfaced to the caller. -/
def get_model_layers (net : Net) (order : List String) :
    Except Exn (List TensorRecord) × List HttpCall :=
  let a := shardedAttempt net order
  match a.1 with
  | .ok recs => (.ok recs, a.2)
  | .error _ =>
    let s := parse_single_file net SAFETENSORS_FILE
    (s.1.map buildSingle, a.2 ++ s.2)

/-! ### The retry stack: `create_session` + `get_file_response`

`get_file_response` (cli.py lines 66-97) layers two retry mechanisms: the
session built by `create_session` mounts a urllib3
`Retry(total=retries, backoff_factor=backoff, status_forcelist=[429, 500,
502, 503, 504], allowed_methods=[... "GET" ...])`, which retries
transport failures and forcelist statuses inside each `session.get` call
(sleeping `0` before the first retry and `backoff_factor * 2^(n-1)` before
the n-th, clamped to urllib3's default `backoff_max = 120`, raising
`RetryError`/`ConnectionError` when `total` is exhausted; a non-forcelist
status is returned as a response); on top, the manual loop of lines 84-94
calls `response.raise_for_status()` (an `HTTPError` for statuses 400-599)
and catches every `requests.RequestException`, sleeping
`backoff * 2^attempt` before each of its own `retries` further attempts.

The physical HTTP traffic is an outcome oracle: the n-th request either
yields a response with a status and content, or fails at transport level
(connection error / timeout). Sleeps are collected chronologically. -/

/-- The outcome of one physical HTTP request. -/
inductive Outcome where
  | resp (status : Nat) (content : List Nat)
  | transport
  deriving DecidableEq, Repr

/-- The `status_forcelist` of `create_session` (cli.py line 57). -/
def STATUS_FORCELIST : List Nat := [429, 500, 502, 503, 504]

/-- The sleep urllib3's `Retry.get_backoff_time` computes before the
`consecutive`-th retry of one `session.get` call: `0` when at most one
error has occurred, else `backoff_factor * 2^(consecutive-1)` clamped into
`[0, 120]`. -/
def urBackoffTime (b : ℚ) (consecutive : Nat) : ℚ :=
  if consecutive ≤ 1 then 0 else max 0 (min 120 (b * 2 ^ (consecutive - 1)))

/-- The outcome of one `session.get` call: the reached response (status and
content) or the raised exception, the index of the next unconsumed physical
request, and the sleeps performed inside the call. -/
structure SessResult where
  result : Except Exn (Nat × List Nat)
  nextIdx : Nat
  sleeps : List ℚ
  deriving Repr

/-- Models one `session.get` on the session built by `create_session`:
urllib3 issues physical requests starting at index `i`, retrying forcelist
statuses and transport failures while `remaining` retries are left
(`remaining` starts at the configured `total`), with `consecutive` counting
the failures already in this call's retry history. With no retries left, a
forcelist status raises `RetryError` and a transport failure
`ConnectionError`; a non-forcelist status is returned as the response. -/
def sessionGet (server : Nat → Outcome) (b : ℚ) :
    Nat → Nat → Nat → SessResult
  | 0, _, i =>
    match server i with
    | .resp st c =>
      if st ∈ STATUS_FORCELIST then ⟨.error .retryError, i + 1, []⟩
      else ⟨.ok (st, c), i + 1, []⟩
    | .transport => ⟨.error .connError, i + 1, []⟩
  | r + 1, consecutive, i =>
    match server i with
    | .resp st c =>
      if st ∈ STATUS_FORCELIST then
        let s := urBackoffTime b (consecutive + 1)
        let rest := sessionGet server b r (consecutive + 1) (i + 1)
        ⟨rest.result, rest.nextIdx, s :: rest.sleeps⟩
      else ⟨.ok (st, c), i + 1, []⟩
    | .transport =>
      let s := urBackoffTime b (consecutive + 1)
      let rest := sessionGet server b r (consecutive + 1) (i + 1)
      ⟨rest.result, rest.nextIdx, s :: rest.sleeps⟩

/-- Models `response.raise_for_status()`: an `HTTPError` for any status in
400-599, otherwise the response is kept. -/
def raiseForStatus (st : Nat) (c : List Nat) : Except Exn (Nat × List Nat) :=
  if 400 ≤ st ∧ st < 600 then .error (.httpError st) else .ok (st, c)

/-- The outcome of a whole `get_file_response` call: final result, number
of physical requests consumed, and all sleeps (inner urllib3 backoff and
outer `time.sleep`) in chronological order. -/
structure FetchResult where
  result : Except Exn (Nat × List Nat)
  nextIdx : Nat
  sleeps : List ℚ
  deriving Repr

/-- One iteration body of the manual loop (cli.py lines 85-88): a
`session.get` (the session's `Retry` state is re-instantiated per request
with `total = retries`) followed by `raise_for_status`. -/
def gfrStep (server : Nat → Outcome) (b : ℚ) (retries i : Nat) :
    SessResult :=
  let s := sessionGet server b retries 0 i
  ⟨match s.result with
    | .ok (st, c) => raiseForStatus st c
    | .error e => .error e, s.nextIdx, s.sleeps⟩

/-- The manual retry loop of `get_file_response` (cli.py lines 84-94):
`left` is `retries - attempt`; on a caught exception with `left = 0`
(i.e. `attempt == retries`) the exception is re-raised, otherwise the loop
sleeps `backoff * 2^attempt` and retries. -/
def gfrLoop (server : Nat → Outcome) (b : ℚ) (retries : Nat) :
    Nat → Nat → Nat → FetchResult
  | 0, _, i =>
    let st := gfrStep server b retries i
    ⟨st.result, st.nextIdx, st.sleeps⟩
  | l + 1, attempt, i =>
    let st := gfrStep server b retries i
    match st.result with
    | .ok r => ⟨.ok r, st.nextIdx, st.sleeps⟩
    | .error _ =>
      let rest := gfrLoop server b retries l (attempt + 1) st.nextIdx
      ⟨rest.result, rest.nextIdx, st.sleeps ++ b * 2 ^ attempt :: rest.sleeps⟩

/-- Models `get_file_response` restricted to its retry behavior: the loop
starts at attempt 0 on a fresh server stream. -/
def get_file_response (server : Nat → Outcome) (retries : Nat) (b : ℚ) :
    FetchResult :=
  gfrLoop server b retries retries 0 0

/-! ### Concrete servers, networks and documents used in witnesses and
counterexamples. -/

instance {ε α : Type} [DecidableEq ε] [DecidableEq α] : DecidableEq (Except ε α) :=
  fun a b =>
    match a, b with
    | .ok x, .ok y => decidable_of_iff (x = y) (by simp)
    | .error x, .error y => decidable_of_iff (x = y) (by simp)
    | .ok _, .error _ => isFalse (by simp)
    | .error _, .ok _ => isFalse (by simp)

/-- A network whose length-prefix response announces a header of
25,000,001 bytes. -/
def netTooLarge : Net := fun _ r =>
  if r = some "bytes=0-7" then .ok (encU64LE 25000001) else .error (.httpError 404)

/-- A concrete one-tensor header. -/
def hdrW : Hdr := [("w", { dtype := "F32", shape := [2, 3] })]

/-- Its serialized body (10 bytes). -/
def bodyW : List Nat := encHdr hdrW

/-- The whole single-file blob: length prefix, header body, then 3 bytes of
tensor payload. -/
def fileW : List Nat := encU64LE 10 ++ bodyW ++ [0, 0, 0]

/-- A well-behaved 206 server for `fileW`: answers each range request with
exactly the requested bytes. -/
def net206 : Net := fun f r =>
  if f = SAFETENSORS_FILE ∧ r = some "bytes=0-7" then .ok (encU64LE 10)
  else if f = SAFETENSORS_FILE ∧ r = some "bytes=8-17" then .ok bodyW
  else .error (.httpError 404)

/-- A range-ignoring 200 server for the same file: answers every request
with the full file content. -/
def net200 : Net := fun f _ =>
  if f = SAFETENSORS_FILE then .ok fileW else .error (.httpError 404)

/-- A network where every fetch of the index file fails with HTTP 404 and
every fetch of `model.safetensors` fails with HTTP 403, so the sharded and
single-file errors are distinguishable. -/
def netBothFail : Net := fun f _ =>
  if f = SAFETENSORS_INDEX_FILE then .error (.httpError 404)
  else .error (.httpError 403)

/-- An index document whose weight map names `__metadata__` as a tensor,
and a shard header that carries a (hostile but well-formed) `__metadata__`
entry with a shape and dtype. -/
def idxDocMeta : IndexDoc := [("weight_map", [("__metadata__", "s1")])]

/-- The hostile shard header: `__metadata__` described like a tensor. -/
def hdrMeta : Hdr := [("__metadata__", { dtype := "F32", shape := [1] })]

/-- A network serving `idxDocMeta` and the `s1` shard holding `hdrMeta`. -/
def netMeta : Net := fun f r =>
  if f = SAFETENSORS_INDEX_FILE ∧ r = none then .ok (encIndex idxDocMeta)
  else if f = "s1" ∧ r = some "bytes=0-7" then .ok (encU64LE (encHdr hdrMeta).length)
  else if f = "s1" ∧ r = some (s!"bytes=8-{8 + (encHdr hdrMeta).length - 1}") then
    .ok (encHdr hdrMeta)
  else .error (.httpError 404)

/-- A two-shard index document: tensors `a.weight` in shard `s2` and
`b.weight`, `c.weight` in shard `s1`; `b.weight` is named by the index but
missing from its shard's header. -/
def idxDocTwo : IndexDoc :=
  [("metadata", [("total_size", "56")]),
   ("weight_map", [("a.weight", "s2"), ("b.weight", "s1"), ("c.weight", "s1")])]

/-- The header of shard `s1` (lacks `b.weight`). -/
def hdrS1 : Hdr := [("c.weight", { dtype := "I64", shape := [3] })]

/-- The header of shard `s2`. -/
def hdrS2 : Hdr := [("a.weight", { dtype := "BF16", shape := [4, 4] })]

/-- A deterministic network serving the two-shard layout. -/
def netTwo : Net := fun f r =>
  if f = SAFETENSORS_INDEX_FILE ∧ r = none then .ok (encIndex idxDocTwo)
  else if f = "s1" ∧ r = some "bytes=0-7" then .ok (encU64LE (encHdr hdrS1).length)
  else if f = "s1" ∧ r = some (s!"bytes=8-{8 + (encHdr hdrS1).length - 1}") then
    .ok (encHdr hdrS1)
  else if f = "s2" ∧ r = some "bytes=0-7" then .ok (encU64LE (encHdr hdrS2).length)
  else if f = "s2" ∧ r = some (s!"bytes=8-{8 + (encHdr hdrS2).length - 1}") then
    .ok (encHdr hdrS2)
  else .error (.httpError 404)

/-- A server that answers every physical request with HTTP 404. -/
def server404 : Nat → Outcome := fun _ => .resp 404 []

/-- A server that answers 503 twice and then succeeds with status 200. -/
def server503Twice : Nat → Outcome := fun i =>
  if i < 2 then .resp 503 [] else .resp 200 [7]

/-- A server that answers every physical request with HTTP 503. -/
def server503 : Nat → Outcome := fun _ => .resp 503 []

/-! ## Helper lemmas -/

theorem lexLt_trans (a : List Nat) : ∀ b c, lexLt a b → lexLt b c → lexLt a c := by
  induction a with
  | nil =>
    intro b c hab hbc
    cases b <;> cases c <;> simp_all [lexLt]
  | cons x as ih =>
    intro b c hab hbc
    cases b with
    | nil => simp [lexLt] at hab
    | cons y bs =>
      cases c with
      | nil => simp [lexLt] at hbc
      | cons z cs =>
        simp only [lexLt, Bool.or_eq_true, Bool.and_eq_true, decide_eq_true_eq]
          at hab hbc ⊢
        rcases hab with h1 | ⟨h1, h2⟩ <;> rcases hbc with g1 | ⟨g1, g2⟩
        · exact Or.inl (h1.trans g1)
        · exact Or.inl (g1 ▸ h1)
        · exact Or.inl (h1 ▸ g1)
        · exact Or.inr ⟨h1.trans g1, ih bs cs h2 g2⟩

theorem lexLt_irrefl (a : List Nat) : lexLt a a = false := by
  induction a with
  | nil => rfl
  | cons x as ih => simp [lexLt, ih]

theorem lexLt_tri (a : List Nat) : ∀ b, a ≠ b → lexLt a b ∨ lexLt b a := by
  induction a with
  | nil =>
    intro b hne
    cases b with
    | nil => exact absurd rfl hne
    | cons y bs => left; simp [lexLt]
  | cons x as ih =>
    intro b hne
    cases b with
    | nil => right; simp [lexLt]
    | cons y bs =>
      by_cases hxy : x = y
      · subst hxy
        have hne' : as ≠ bs := by
          intro h
          exact hne (by rw [h])
        rcases ih bs hne' with h | h
        · left; simp [lexLt, h]
        · right; simp [lexLt, h]
      · rcases Nat.lt_or_ge x y with h | h
        · left; simp [lexLt, h]
        · have : y < x := lt_of_le_of_ne h (fun e => hxy e.symm)
          right; simp [lexLt, this]

theorem charToNat_inj : Function.Injective Char.toNat := by
  intro a b h
  exact Char.ext (UInt32.toNat.inj h)

theorem strCodes_inj {s t : String} (h : strCodes s = strCodes t) : s = t := by
  apply String.ext
  exact List.map_injective_iff.mpr charToNat_inj h

theorem strLt_trans {a b c : String} (h1 : strLt a b) (h2 : strLt b c) :
    strLt a c :=
  lexLt_trans _ _ _ h1 h2

theorem strLt_irrefl (a : String) : strLt a a = false :=
  lexLt_irrefl _

theorem strLt_ne {a b : String} (h : strLt a b) : a ≠ b := by
  intro e
  subst e
  rw [strLt_irrefl] at h
  exact absurd h (by simp)

theorem strLt_tri {a b : String} (hne : a ≠ b) : strLt a b ∨ strLt b a := by
  have : strCodes a ≠ strCodes b := fun h => hne (strCodes_inj h)
  exact lexLt_tri _ _ this

theorem mem_insSD {x z : String} : ∀ {l : List String},
    z ∈ insSD x l ↔ z = x ∨ z ∈ l := by
  intro l
  induction l with
  | nil => simp [insSD]
  | cons y ys ih =>
    by_cases hxy : x = y
    · subst hxy
      simp only [insSD, if_pos rfl]
      constructor
      · intro h; exact Or.inr h
      · rintro (h | h)
        · subst h; exact List.mem_cons_self _ _
        · exact h
    · simp only [insSD, if_neg hxy]
      by_cases hlt : strLt x y
      · simp only [if_pos hlt, List.mem_cons]
      · simp only [if_neg hlt, List.mem_cons, ih]
        tauto

theorem pairwise_insSD (x : String) : ∀ {l : List String},
    l.Pairwise (fun a b => strLt a b = true) →
    (insSD x l).Pairwise (fun a b => strLt a b = true) := by
  intro l
  induction l with
  | nil =>
    intro _
    simp [insSD]
  | cons y ys ih =>
    intro hp
    rcases List.pairwise_cons.mp hp with ⟨hy, hys⟩
    by_cases hxy : x = y
    · subst hxy
      simpa [insSD] using hp
    · by_cases hlt : strLt x y
      · simp only [insSD, if_neg hxy, if_pos hlt]
        refine List.pairwise_cons.mpr ⟨?_, hp⟩
        intro z hz
        rcases List.mem_cons.mp hz with h | h
        · subst h; exact hlt
        · exact strLt_trans hlt (hy z h)
      · simp only [insSD, if_neg hxy, if_neg hlt]
        refine List.pairwise_cons.mpr ⟨?_, ih hys⟩
        intro z hz
        rcases mem_insSD.mp hz with h | h
        · subst h
          rcases strLt_tri (fun e => hxy e.symm) with h | h
          · exact h
          · exact absurd h hlt
        · exact hy z h

theorem sortedDedup_pairwise (l : List String) :
    (sortedDedup l).Pairwise (fun a b => strLt a b = true) := by
  induction l with
  | nil => simp [sortedDedup]
  | cons x xs ih => exact pairwise_insSD x ih

theorem mem_sortedDedup {z : String} : ∀ {l : List String},
    z ∈ sortedDedup l ↔ z ∈ l := by
  intro l
  induction l with
  | nil => simp [sortedDedup]
  | cons x xs ih =>
    show z ∈ insSD x (sortedDedup xs) ↔ _
    rw [mem_insSD]
    simp [ih, List.mem_cons]

theorem sortedDedup_nodup (l : List String) : (sortedDedup l).Nodup :=
  (sortedDedup_pairwise l).imp (fun h => strLt_ne h)

theorem lookup_eq_none_of_not_mem {α β : Type} [DecidableEq α]
    {l : List (α × β)} {a : α} (h : a ∉ l.map Prod.fst) : l.lookup a = none := by
  induction l with
  | nil => rfl
  | cons p t ih =>
    obtain ⟨k, v⟩ := p
    simp only [List.map_cons, List.mem_cons, not_or] at h
    rcases h with ⟨h1, h2⟩
    have hb : (a == k) = false := beq_eq_false_iff_ne.mpr h1
    simp only [List.lookup, hb]
    exact ih h2

theorem lookup_map_graph {β : Type} (g : String → β) :
    ∀ (o : List String) (x : String),
    (o.map (fun f => (f, g f))).lookup x = if x ∈ o then some (g x) else none := by
  intro o
  induction o with
  | nil => simp
  | cons f fs ih =>
    intro x
    by_cases hx : x = f
    · subst hx
      simp [List.lookup]
    · have hb : (x == f) = false := beq_eq_false_iff_ne.mpr hx
      simp only [List.map_cons, List.lookup, hb, List.mem_cons]
      simp [ih x, hx]

theorem mkRecord_size (n : String) (info : TensorInfo) :
    (mkRecord n info).size =
      (mkRecord n info).shape.prod * dtypeBytesGet (mkRecord n info).dtype := rfl

theorem mem_buildSingle {h : Hdr} {r : TensorRecord} (hr : r ∈ buildSingle h) :
    ∃ p ∈ h, p.1 ≠ "__metadata__" ∧ r = mkRecord p.1 p.2 := by
  unfold buildSingle at hr
  rcases List.mem_map.mp hr with ⟨p, hp, hpr⟩
  rcases List.mem_filter.mp hp with ⟨hmem, hq⟩
  exact ⟨p, hmem, by simpa using hq, hpr.symm⟩

theorem buildSharded_cons (n f : String) (rest : List (String × String))
    (headers : List (String × Hdr)) :
    buildSharded ((n, f) :: rest) headers =
      match headers.lookup f with
      | none => .error (.keyError f)
      | some header =>
        match header.lookup n with
        | none => buildSharded rest headers
        | some info =>
          match buildSharded rest headers with
          | .error e => .error e
          | .ok tail => .ok (mkRecord n info :: tail) := rfl

theorem buildSharded_mem : ∀ (wm : List (String × String))
    (headers : List (String × Hdr)) (recs : List TensorRecord),
    buildSharded wm headers = .ok recs →
    ∀ r ∈ recs, ∃ p ∈ wm, ∃ info,
      (headers.lookup p.2).bind (fun h => h.lookup p.1) = some info ∧
      r = mkRecord p.1 info := by
  intro wm
  induction wm with
  | nil =>
    intro headers recs hok r hr
    simp only [buildSharded] at hok
    cases hok
    simp at hr
  | cons q rest ih =>
    intro headers recs hok r hr
    obtain ⟨n, f⟩ := q
    rw [buildSharded_cons] at hok
    cases hh : headers.lookup f with
    | none =>
      simp only [hh] at hok
      cases hok
    | some hd =>
      simp only [hh] at hok
      cases hi : hd.lookup n with
      | none =>
        simp only [hi] at hok
        rcases ih headers recs hok r hr with ⟨p, hp, info, hlk, hrr⟩
        exact ⟨p, List.mem_cons_of_mem _ hp, info, hlk, hrr⟩
      | some info =>
        simp only [hi] at hok
        cases ht : buildSharded rest headers with
        | error e =>
          simp only [ht] at hok
          cases hok
        | ok tail =>
          simp only [ht] at hok
          cases hok
          rcases List.mem_cons.mp hr with h | h
          · exact ⟨(n, f), List.mem_cons_self _ _, info, by simp [hh, hi], h⟩
          · rcases ih headers tail ht r h with ⟨p, hp, info', hlk, hrr⟩
            exact ⟨p, List.mem_cons_of_mem _ hp, info', hlk, hrr⟩

theorem buildSingle_length (h : Hdr) (hnd : (h.map Prod.fst).Nodup) :
    (buildSingle h).length =
      h.length - (if "__metadata__" ∈ h.map Prod.fst then 1 else 0) := by
  induction h with
  | nil => simp [buildSingle]
  | cons p t ih =>
    obtain ⟨n, info⟩ := p
    simp only [List.map_cons, List.nodup_cons] at hnd
    obtain ⟨hnin, hnd'⟩ := hnd
    have iht := ih hnd'
    simp only [buildSingle, List.length_map, List.filter_cons, List.map_cons,
      List.length_cons] at iht ⊢
    by_cases hn : n = "__metadata__"
    · subst hn
      have hmt : "__metadata__" ∉ t.map Prod.fst := hnin
      rw [if_neg hmt] at iht
      rw [if_neg (by simp)]
      rw [if_pos (List.mem_cons_self _ _)]
      omega
    · have hq : ((n, info).1 != "__metadata__") = true := by simpa using hn
      rw [if_pos hq]
      by_cases hm : "__metadata__" ∈ t.map Prod.fst
      · rw [if_pos hm] at iht
        rw [if_pos (List.mem_cons_of_mem _ hm)]
        have h1 : 1 ≤ t.length := by
          cases t with
          | nil => simp at hm
          | cons _ _ => simp
        simp only [List.length_cons]
        omega
      · rw [if_neg hm] at iht
        rw [if_neg (fun hcon => (List.mem_cons.mp hcon).elim
          (fun e => hn e.symm) hm)]
        simp only [List.length_cons]
        omega

/-! ## Claims -/

/-- C1: for every tensor entry, the `size` field of the produced record is
exactly `product(shape) * byte_width(dtype)` on both build paths, computed
in exact (`Nat`) arithmetic; `byte_width` maps every canonical tag and
lowercase alias of `DTYPE_BYTES` to its tabled width and every unrecognized
dtype to 1. -/
theorem C1_size_exact :
    (∀ (h : Hdr) (r : TensorRecord), r ∈ buildSingle h →
        r.size = r.shape.prod * dtypeBytesGet r.dtype)
  ∧ (∀ (wm : List (String × String)) (headers : List (String × Hdr))
        (recs : List TensorRecord) (r : TensorRecord),
        buildSharded wm headers = .ok recs → r ∈ recs →
        r.size = r.shape.prod * dtypeBytesGet r.dtype)
  ∧ (∀ p ∈ DTYPE_BYTES, dtypeBytesGet p.1 = p.2)
  ∧ (∀ d, d ∉ DTYPE_BYTES.map Prod.fst → dtypeBytesGet d = 1) := by
  refine ⟨?_, ?_, ?_, ?_⟩
  · intro h r hr
    rcases mem_buildSingle hr with ⟨p, _, _, hrr⟩
    rw [hrr]
    exact mkRecord_size p.1 p.2
  · intro wm headers recs r hok hr
    rcases buildSharded_mem wm headers recs hok r hr with ⟨p, _, info, _, hrr⟩
    rw [hrr]
    exact mkRecord_size p.1 info
  · intro p hp
    fin_cases hp <;> rfl
  · intro d hd
    unfold dtypeBytesGet
    rw [lookup_eq_none_of_not_mem hd]
    rfl

/-- Witness for C1 at concrete inputs: a single-file record, a sharded
record, a tabled dtype and an unrecognized dtype. -/
theorem C1_size_exact_witness :
    (mkRecord "w" ⟨"F32", [2, 3]⟩ ∈ buildSingle hdrW
      ∧ (mkRecord "w" ⟨"F32", [2, 3]⟩).size =
          (mkRecord "w" ⟨"F32", [2, 3]⟩).shape.prod *
            dtypeBytesGet (mkRecord "w" ⟨"F32", [2, 3]⟩).dtype)
  ∧ (buildSharded [("a", "s")] [("s", [("a", ⟨"I64", [5]⟩)])] =
        .ok [mkRecord "a" ⟨"I64", [5]⟩]
      ∧ (mkRecord "a" ⟨"I64", [5]⟩).size =
          (mkRecord "a" ⟨"I64", [5]⟩).shape.prod *
            dtypeBytesGet (mkRecord "a" ⟨"I64", [5]⟩).dtype)
  ∧ (("BF16", 2) ∈ DTYPE_BYTES ∧ dtypeBytesGet "BF16" = 2)
  ∧ ("F64" ∉ DTYPE_BYTES.map Prod.fst ∧ dtypeBytesGet "F64" = 1) := by
  refine ⟨⟨by decide, C1_size_exact.1 hdrW _ (by decide)⟩,
    ⟨by decide, C1_size_exact.2.1 [("a", "s")] [("s", [("a", ⟨"I64", [5]⟩)])]
      [mkRecord "a" ⟨"I64", [5]⟩] _ (by decide) (by decide)⟩,
    ⟨by decide, C1_size_exact.2.2.1 ("BF16", 2) (by decide)⟩,
    ⟨by decide, C1_size_exact.2.2.2 "F64" (by decide)⟩⟩

/-- C4: in the sharded build, with every shard filename of `weight_map`
resolvable in the collected headers (as after a successful
`parse_sharded_index`), the result is exactly the `weight_map`-ordered
filterMap that emits a record precisely for the tensors present in their
shard's decoded header — tensors named in the index but absent from their
shard are silently skipped, everything else is emitted, and no error is
raised. -/
theorem C4_weight_map_iff (wm : List (String × String))
    (headers : List (String × Hdr))
    (hall : ∀ f ∈ wm.map Prod.snd, (headers.lookup f).isSome) :
    buildSharded wm headers =
      .ok (wm.filterMap (fun p =>
        (headers.lookup p.2).bind (fun h => (h.lookup p.1).map (mkRecord p.1)))) := by
  induction wm with
  | nil => rfl
  | cons q rest ih =>
    obtain ⟨n, f⟩ := q
    have hf : (headers.lookup f).isSome := hall f (by simp)
    cases hh : headers.lookup f with
    | none => rw [hh] at hf; cases hf
    | some hd =>
      have ihr := ih (fun g hg => hall g (by simp [hg]))
      rw [buildSharded_cons]
      simp only [hh, List.filterMap_cons]
      cases hi : hd.lookup n with
      | none =>
        simp only [hi, Option.map_none', Option.bind_some, Option.some_bind]
        simpa using ihr
      | some info =>
        simp only [hi, Option.map_some', Option.bind_some, Option.some_bind]
        rw [ihr]

/-- Witness for C4: the spec's own example — `a.weight` resolvable in
`shard1`, `b.weight` named by the index but missing from `shard2`'s
header; exactly one record is emitted. -/
theorem C4_weight_map_iff_witness :
    (∀ f ∈ ([("a.weight", "shard1"), ("b.weight", "shard2")].map Prod.snd),
      (([("shard1", [("a.weight", ⟨"F32", [2]⟩)]),
         ("shard2", [("other", ⟨"F32", [2]⟩)])] : List (String × Hdr)).lookup f).isSome)
  ∧ buildSharded [("a.weight", "shard1"), ("b.weight", "shard2")]
      [("shard1", [("a.weight", ⟨"F32", [2]⟩)]),
       ("shard2", [("other", ⟨"F32", [2]⟩)])] =
      .ok [mkRecord "a.weight" ⟨"F32", [2]⟩] := by
  refine ⟨by decide, ?_⟩
  have h := C4_weight_map_iff [("a.weight", "shard1"), ("b.weight", "shard2")]
    [("shard1", [("a.weight", ⟨"F32", [2]⟩)]),
     ("shard2", [("other", ⟨"F32", [2]⟩)])] (by decide)
  rw [h]
  decide

/-- C5 as stated is violated on the sharded path: with the index's
`weight_map` naming `__metadata__` and its shard's decoded header carrying
a well-formed `__metadata__` entry, the sharded build — reached through
`get_model_layers` on a network serving exactly those documents — produces
a record named `__metadata__`. -/
theorem C5_counterexample :
    (shardedAttempt netMeta ["s1"]).1 =
      .ok [{ name := "__metadata__", shape := [1], dtype := "F32", size := 4 }]
  ∧ (get_model_layers netMeta ["s1"]).1 =
      .ok [{ name := "__metadata__", shape := [1], dtype := "F32", size := 4 }]
  ∧ ["s1"] = shardFilesOf [("__metadata__", "s1")] := by
  exact ⟨by decide, by decide, by decide⟩

/-- C5 amended: the single-file build of a valid header `H` produces
exactly `len(H) - (1 if "__metadata__" in H else 0)` records, none named
`__metadata__`; the sharded build, however, applies no `__metadata__`
filter — every emitted record is named by a `weight_map` key, so a record
named `__metadata__` appears exactly when the index names it and its shard
resolves it. -/
theorem C5_metadata_excluded :
    (∀ h : Hdr, (h.map Prod.fst).Nodup →
      (buildSingle h).length =
        h.length - (if "__metadata__" ∈ h.map Prod.fst then 1 else 0))
  ∧ (∀ (h : Hdr) (r : TensorRecord), r ∈ buildSingle h → r.name ≠ "__metadata__")
  ∧ (∀ (wm : List (String × String)) (headers : List (String × Hdr))
      (recs : List TensorRecord), buildSharded wm headers = .ok recs →
      ∀ r ∈ recs, r.name ∈ wm.map Prod.fst) := by
  refine ⟨buildSingle_length, ?_, ?_⟩
  · intro h r hr
    rcases mem_buildSingle hr with ⟨p, _, hne, hrr⟩
    rw [hrr]
    exact hne
  · intro wm headers recs hok r hr
    rcases buildSharded_mem wm headers recs hok r hr with ⟨p, hp, info, _, hrr⟩
    rw [hrr]
    exact List.mem_map.mpr ⟨p, hp, rfl⟩

/-- Witness for C5 amended: a two-entry header with `__metadata__` yields
one record, and the `netMeta` sharded run's record is named by the
weight map. -/
theorem C5_metadata_excluded_witness :
    (((([("__metadata__", ⟨"F32", [0]⟩), ("w", ⟨"F32", [2, 3]⟩)] : Hdr).map
        Prod.fst).Nodup)
      ∧ (buildSingle [("__metadata__", ⟨"F32", [0]⟩), ("w", ⟨"F32", [2, 3]⟩)]).length =
          ([("__metadata__", ⟨"F32", [0]⟩), ("w", ⟨"F32", [2, 3]⟩)] : Hdr).length - 1)
  ∧ (mkRecord "w" ⟨"F32", [2, 3]⟩ ∈ buildSingle hdrW
      ∧ (mkRecord "w" ⟨"F32", [2, 3]⟩).name ≠ "__metadata__")
  ∧ (buildSharded [("__metadata__", "s1")] [("s1", hdrMeta)] =
        .ok [mkRecord "__metadata__" ⟨"F32", [1]⟩]
      ∧ (mkRecord "__metadata__" ⟨"F32", [1]⟩).name ∈
          ([("__metadata__", "s1")].map Prod.fst)) := by
  refine ⟨⟨by decide, ?_⟩, ⟨by decide, ?_⟩, ⟨by decide, ?_⟩⟩
  · have h := C5_metadata_excluded.1
      [("__metadata__", ⟨"F32", [0]⟩), ("w", ⟨"F32", [2, 3]⟩)] (by decide)
    simpa using h
  · exact C5_metadata_excluded.2.1 hdrW _ (by decide)
  · exact C5_metadata_excluded.2.2 [("__metadata__", "s1")] [("s1", hdrMeta)]
      [mkRecord "__metadata__" ⟨"F32", [1]⟩] (by decide) _ (by decide)

/-- C2: whenever the fetched 8-byte length prefix decodes to
`L > 25_000_000`, `parse_single_file` fails with
`ValueError("Header too large")` and its request trace is exactly the one
prefix request — no second range request for the header body is issued
before failing. -/
theorem C2_header_too_large (net : Net) (filename : String) (c : List Nat)
    (L : Nat) (h1 : net filename (some "bytes=0-7") = .ok c)
    (h2 : unpackU64LE c = .ok L) (h3 : L > 25000000) :
    parse_single_file net filename =
      (.error (.valueError "Header too large"),
       [⟨filename, some "bytes=0-7", DEFAULT_TIMEOUT, DEFAULT_RETRIES,
         DEFAULT_BACKOFF⟩]) := by
  simp only [parse_single_file, h1, h2, if_pos h3]

/-- Witness for C2: a network announcing a 25,000,001-byte header. -/
theorem C2_header_too_large_witness :
    netTooLarge "model.safetensors" (some "bytes=0-7") = .ok (encU64LE 25000001)
  ∧ unpackU64LE (encU64LE 25000001) = .ok 25000001
  ∧ 25000001 > 25000000
  ∧ parse_single_file netTooLarge "model.safetensors" =
      (.error (.valueError "Header too large"),
       [⟨"model.safetensors", some "bytes=0-7", DEFAULT_TIMEOUT,
         DEFAULT_RETRIES, DEFAULT_BACKOFF⟩]) := by
  refine ⟨by decide, by decide, by decide, ?_⟩
  exact C2_header_too_large netTooLarge "model.safetensors" (encU64LE 25000001)
    25000001 (by decide) (by decide) (by decide)

/-- C6 as stated is violated: on a server that answers the range request
with a full 200 response (the whole file), the decoder does not examine
just the first 8 bytes — `struct.unpack('<Q', content)` rejects the
21-byte response outright, so decoding fails instead of succeeding with
the same header the 206 server yields. -/
theorem C6_counterexample :
    (parse_single_file net206 SAFETENSORS_FILE).1 = .ok hdrW
  ∧ (parse_single_file net200 SAFETENSORS_FILE).1 = .error .structError
  ∧ fileW.length = 21 := by
  exact ⟨by decide, by decide, by decide⟩

/-- C6 amended: the decoder requires each response to contain exactly the
requested byte window. A first response whose content is not exactly 8
bytes fails decoding with `struct.error`; decoding succeeds precisely
through exact responses: an 8-byte prefix encoding `L ≤ 25_000_000` and a
body response that parses in full as the header JSON. -/
theorem C6_exact_range_required :
    (∀ (net : Net) (filename : String) (c : List Nat),
      net filename (some "bytes=0-7") = .ok c → c.length ≠ 8 →
      (parse_single_file net filename).1 = .error .structError)
  ∧ (∀ (net : Net) (filename : String) (c1 : List Nat) (L : Nat)
      (c2 : List Nat) (h : Hdr),
      net filename (some "bytes=0-7") = .ok c1 →
      unpackU64LE c1 = .ok L → L ≤ 25000000 →
      net filename (some s!"bytes=8-{8 + L - 1}") = .ok c2 →
      jsonLoadsHdr c2 = .ok h →
      (parse_single_file net filename).1 = .ok h) := by
  constructor
  · intro net filename c h1 hlen
    have hu : unpackU64LE c = .error .structError := by
      unfold unpackU64LE
      rw [if_neg hlen]
    simp only [parse_single_file, h1, hu]
  · intro net filename c1 L c2 h h1 h2 h3 h4 h5
    have hnot : ¬(L > 25000000) := by omega
    simp only [parse_single_file, h1, h2, if_neg hnot, h4, h5]

/-- Witness for C6 amended: the 200 server's 21-byte response fails, the
206 server's exact responses succeed. -/
theorem C6_exact_range_required_witness :
    (net200 SAFETENSORS_FILE (some "bytes=0-7") = .ok fileW
      ∧ fileW.length ≠ 8
      ∧ (parse_single_file net200 SAFETENSORS_FILE).1 = .error .structError)
  ∧ (net206 SAFETENSORS_FILE (some "bytes=0-7") = .ok (encU64LE 10)
      ∧ unpackU64LE (encU64LE 10) = .ok 10
      ∧ net206 SAFETENSORS_FILE (some "bytes=8-17") = .ok bodyW
      ∧ jsonLoadsHdr bodyW = .ok hdrW
      ∧ (parse_single_file net206 SAFETENSORS_FILE).1 = .ok hdrW) := by
  refine ⟨⟨by decide, by decide, ?_⟩, ⟨by decide, by decide, by decide, by decide, ?_⟩⟩
  · exact C6_exact_range_required.1 net200 SAFETENSORS_FILE fileW (by decide)
      (by decide)
  · exact C6_exact_range_required.2 net206 SAFETENSORS_FILE (encU64LE 10) 10
      bodyW hdrW (by decide) (by decide) (by decide) (by decide) (by decide)

theorem parse_single_file_calls (net : Net) (f : String) (c : HttpCall)
    (hc : c ∈ (parse_single_file net f).2) :
    c.filename = f ∧ c.timeout = DEFAULT_TIMEOUT ∧
      c.retries = DEFAULT_RETRIES ∧ c.backoff = DEFAULT_BACKOFF := by
  simp only [parse_single_file] at hc
  repeat' split at hc
  all_goals simp only [List.mem_cons, List.not_mem_nil, or_false] at hc
  all_goals first
    | (rcases hc with h | h <;> subst h <;> exact ⟨rfl, rfl, rfl, rfl⟩)
    | (subst hc; exact ⟨rfl, rfl, rfl, rfl⟩)

theorem parse_single_file_trace_head (net : Net) (f : String) :
    (parse_single_file net f).2.head? =
      some ⟨f, some "bytes=0-7", DEFAULT_TIMEOUT, DEFAULT_RETRIES,
        DEFAULT_BACKOFF⟩ := by
  simp only [parse_single_file]
  repeat' split
  all_goals rfl

theorem collectShardHeaders_calls (net : Net) : ∀ (o : List String)
    (c : HttpCall), c ∈ (collectShardHeaders net o).2 →
    ∃ f ∈ o, c ∈ (parse_single_file net f).2 := by
  intro o
  induction o with
  | nil =>
    intro c hc
    simp [collectShardHeaders] at hc
  | cons f rest ih =>
    intro c hc
    rcases hps : parse_single_file net f with ⟨r, tr⟩
    rcases hcs : collectShardHeaders net rest with ⟨rs, trs⟩
    simp only [collectShardHeaders, hps, hcs] at hc
    cases r with
    | error e =>
      refine ⟨f, by simp, ?_⟩
      rw [hps]
      exact hc
    | ok h =>
      cases rs with
      | error e =>
        rcases List.mem_append.mp hc with h1 | h1
        · exact ⟨f, by simp, by rw [hps]; exact h1⟩
        · rcases ih c (by rw [hcs]; exact h1) with ⟨g, hg, hcg⟩
          exact ⟨g, by simp [hg], hcg⟩
      | ok hs =>
        rcases List.mem_append.mp hc with h1 | h1
        · exact ⟨f, by simp, by rw [hps]; exact h1⟩
        · rcases ih c (by rw [hcs]; exact h1) with ⟨g, hg, hcg⟩
          exact ⟨g, by simp [hg], hcg⟩

theorem parse_sharded_index_calls (net : Net) (order : List String)
    (c : HttpCall) (hc : c ∈ (parse_sharded_index net order).2) :
    c = ⟨SAFETENSORS_INDEX_FILE, none, DEFAULT_TIMEOUT, DEFAULT_RETRIES,
          DEFAULT_BACKOFF⟩
    ∨ ∃ f ∈ order, c ∈ (parse_single_file net f).2 := by
  rcases hcs : collectShardHeaders net order with ⟨rs, trs⟩
  simp only [parse_sharded_index, hcs] at hc
  cases hnet : net SAFETENSORS_INDEX_FILE none with
  | error e =>
    simp only [hnet, List.mem_cons, List.not_mem_nil, or_false] at hc
    exact Or.inl hc
  | ok content =>
    simp only [hnet] at hc
    cases hj : jsonLoadsIndex content with
    | error e =>
      simp only [hj, List.mem_cons, List.not_mem_nil, or_false] at hc
      exact Or.inl hc
    | ok doc =>
      simp only [hj] at hc
      cases hl : doc.lookup "weight_map" with
      | none =>
        simp only [hl, List.mem_cons, List.not_mem_nil, or_false] at hc
        exact Or.inl hc
      | some wm =>
        simp only [hl] at hc
        have hmem : c ∈ (⟨SAFETENSORS_INDEX_FILE, none, DEFAULT_TIMEOUT,
            DEFAULT_RETRIES, DEFAULT_BACKOFF⟩ : HttpCall) :: trs := by
          cases rs with
          | error e => exact hc
          | ok hs => exact hc
        rcases List.mem_cons.mp hmem with h | h
        · exact Or.inl h
        · exact Or.inr (collectShardHeaders_calls net order c
            (by rw [hcs]; exact h))

theorem shardedAttempt_trace (net : Net) (order : List String) :
    (shardedAttempt net order).2 = (parse_sharded_index net order).2 := by
  rcases hps : parse_sharded_index net order with ⟨res, tr⟩
  simp only [shardedAttempt, hps]
  cases res with
  | error e => rfl
  | ok v =>
    show (match v.1.lookup "weight_map" with
      | none => ((Except.error (Exn.keyError "weight_map") :
          Except Exn (List TensorRecord)), tr)
      | some wm => (buildSharded wm v.2, tr)).2 = tr
    cases v.1.lookup "weight_map" <;> rfl

theorem get_model_layers_calls (net : Net) (order : List String)
    (c : HttpCall) (hc : c ∈ (get_model_layers net order).2) :
    c = ⟨SAFETENSORS_INDEX_FILE, none, DEFAULT_TIMEOUT, DEFAULT_RETRIES,
          DEFAULT_BACKOFF⟩
    ∨ (∃ f ∈ order, c ∈ (parse_single_file net f).2)
    ∨ c ∈ (parse_single_file net SAFETENSORS_FILE).2 := by
  rcases hsa : shardedAttempt net order with ⟨a, tr1⟩
  have htr : tr1 = (parse_sharded_index net order).2 := by
    rw [← shardedAttempt_trace net order, hsa]
  simp only [get_model_layers, hsa] at hc
  cases a with
  | ok recs =>
    rcases parse_sharded_index_calls net order c (htr ▸ hc) with h | h
    · exact Or.inl h
    · exact Or.inr (Or.inl h)
  | error e =>
    rcases hps : parse_single_file net SAFETENSORS_FILE with ⟨s, tr2⟩
    rw [hps] at hc
    rcases List.mem_append.mp hc with h | h
    · rcases parse_sharded_index_calls net order c (htr ▸ h) with h1 | h1
      · exact Or.inl h1
      · exact Or.inr (Or.inl h1)
    · exact Or.inr (Or.inr (by simpa [hps] using h))

/-- C3: any error escaping the sharded attempt makes `get_model_layers`
fall back to single-file decoding of `model.safetensors` (its first
request is the 8-byte prefix fetch of that file, appended to the trace),
the run's result becomes the single-file result, and when the fallback
itself fails, the surfaced error is the single-file error — the original
sharded-path error is discarded. -/
theorem C3_fallback (net : Net) (order : List String) (e : Exn)
    (he : (shardedAttempt net order).1 = .error e) :
    (get_model_layers net order).1 =
      (parse_single_file net SAFETENSORS_FILE).1.map buildSingle
  ∧ (get_model_layers net order).2 =
      (shardedAttempt net order).2 ++ (parse_single_file net SAFETENSORS_FILE).2
  ∧ (parse_single_file net SAFETENSORS_FILE).2.head? =
      some ⟨SAFETENSORS_FILE, some "bytes=0-7", DEFAULT_TIMEOUT,
        DEFAULT_RETRIES, DEFAULT_BACKOFF⟩
  ∧ (∀ e2, (parse_single_file net SAFETENSORS_FILE).1 = .error e2 →
      (get_model_layers net order).1 = .error e2) := by
  rcases hsa : shardedAttempt net order with ⟨a, tr1⟩
  rw [hsa] at he
  simp only at he
  subst he
  rcases hps : parse_single_file net SAFETENSORS_FILE with ⟨s, tr2⟩
  have h0 := parse_single_file_trace_head net SAFETENSORS_FILE
  rw [hps] at h0
  refine ⟨?_, ?_, h0, ?_⟩
  · simp only [get_model_layers, hsa, hps]
  · simp only [get_model_layers, hsa, hps]
  · intro e2 he2
    simp only at he2
    subst he2
    simp only [get_model_layers, hsa, hps, Except.map]

/-- Witness for C3: the index fetch fails with HTTP 404, the single-file
fetch with HTTP 403; the surfaced error is the 403. -/
theorem C3_fallback_witness :
    (shardedAttempt netBothFail []).1 = .error (.httpError 404)
  ∧ (parse_single_file netBothFail SAFETENSORS_FILE).1 = .error (.httpError 403)
  ∧ (get_model_layers netBothFail []).1 = .error (.httpError 403) := by
  refine ⟨by decide, by decide, ?_⟩
  exact (C3_fallback netBothFail [] (.httpError 404) (by decide)).2.2.2
    (.httpError 403) (by decide)

/-- C10 as the code stands is violated: the operator-supplied timeout,
retry count and backoff never reach any request. `get_model_layers` (like
the source function, whose signature has no timeout/retries/backoff
parameters) issues every logical fetch call with the module defaults
timeout=30s, retries=3, backoff=1s, because `parse_single_file` (cli.py
lines 104, 115) and the index fetch (line 130) call `get_file_response`
without forwarding those arguments — and `main` never passes the parsed
timeout, retries and backoff command-line flags into `get_model_layers`
at all. -/
theorem C10_defaults_always_used (net : Net) (order : List String)
    (c : HttpCall) (hc : c ∈ (get_model_layers net order).2) :
    c.timeout = 30 ∧ c.retries = 3 ∧ c.backoff = 1 := by
  rcases get_model_layers_calls net order c hc with h | h | h
  · subst h; exact ⟨rfl, rfl, rfl⟩
  · rcases h with ⟨f, _, hcf⟩
    rcases parse_single_file_calls net f c hcf with ⟨_, h1, h2, h3⟩
    exact ⟨h1, h2, h3⟩
  · rcases parse_single_file_calls net SAFETENSORS_FILE c h with ⟨_, h1, h2, h3⟩
    exact ⟨h1, h2, h3⟩

/-- Witness for C10: the index-fetch call of a concrete failing run
carries the defaults. -/
theorem C10_defaults_always_used_witness :
    (⟨SAFETENSORS_INDEX_FILE, none, 30, 3, 1⟩ : HttpCall) ∈
      (get_model_layers netBothFail []).2
  ∧ (⟨SAFETENSORS_INDEX_FILE, none, 30, 3, 1⟩ : HttpCall).timeout = 30
  ∧ (⟨SAFETENSORS_INDEX_FILE, none, 30, 3, 1⟩ : HttpCall).retries = 3
  ∧ (⟨SAFETENSORS_INDEX_FILE, none, 30, 3, 1⟩ : HttpCall).backoff = 1 := by
  refine ⟨by decide, ?_⟩
  exact C10_defaults_always_used netBothFail []
    ⟨SAFETENSORS_INDEX_FILE, none, 30, 3, 1⟩ (by decide)

theorem urBackoffTime_one (b : ℚ) : urBackoffTime b 1 = 0 := by
  simp [urBackoffTime]

theorem sessionGet_pass (server : Nat → Outcome) (b : ℚ)
    (r consec i st : Nat) (content : List Nat)
    (hs : server i = .resp st content) (hnf : st ∉ STATUS_FORCELIST) :
    sessionGet server b r consec i = ⟨.ok (st, content), i + 1, []⟩ := by
  cases r <;> simp [sessionGet, hs, hnf]

theorem gfrLoop_404 (b : ℚ) (retries : Nat) : ∀ (left attempt i : Nat),
    gfrLoop server404 b retries left attempt i =
      ⟨.error (.httpError 404), i + left + 1,
        (List.range' attempt left).map (fun k => b * 2 ^ k)⟩ := by
  intro left
  induction left with
  | zero =>
    intro attempt i
    simp [gfrLoop, gfrStep,
      sessionGet_pass server404 b retries 0 i 404 [] rfl (by decide),
      raiseForStatus]
  | succ l ih =>
    intro attempt i
    simp only [gfrLoop, gfrStep,
      sessionGet_pass server404 b retries 0 i 404 [] rfl (by decide),
      raiseForStatus, if_pos (by omega : 400 ≤ 404 ∧ 404 < 600),
      ih (attempt + 1) (i + 1), List.nil_append, FetchResult.mk.injEq]
    refine ⟨trivial, by omega, ?_⟩
    show b * 2 ^ attempt :: (List.range' (attempt + 1) l).map (fun k => b * 2 ^ k) = _
    rw [List.range'_succ]
    rfl

theorem sessionGet_503twice (b : ℚ) (r : Nat) :
    sessionGet server503Twice b (r + 2) 0 0 =
      ⟨.ok (200, [7]), 3, [0, urBackoffTime b 2]⟩ := by
  have h2 : sessionGet server503Twice b r 2 2 = ⟨.ok (200, [7]), 3, []⟩ := by
    cases r <;> simp [sessionGet, server503Twice, STATUS_FORCELIST]
  simp [sessionGet, server503Twice, STATUS_FORCELIST, h2, urBackoffTime_one]

/-- C7 as stated is violated: the urllib3 session layer indeed passes a
404 response through without retrying (first conjunct would match the
claim), but the outer loop of `get_file_response` catches the `HTTPError`
that `raise_for_status` raises for it and retries anyway — on a constant
404 server with retries=3 and backoff=1 the fetch makes 4 physical
requests and sleeps 1s, 2s and 4s before surfacing the error, instead of
surfacing it immediately with no retries and no sleeps. -/
theorem C7_counterexample :
    get_file_response server404 3 1 =
      ⟨.error (.httpError 404), 4, [1, 2, 4]⟩
  ∧ (4 : Nat) ≠ 1 ∧ ([1, 2, 4] : List ℚ) ≠ [] := by
  refine ⟨?_, by omega, by simp⟩
  have h := gfrLoop_404 1 3 3 0 0
  rw [get_file_response, h]
  norm_num [List.range']

/-- C7 amended: the session layer retries only transport failures and the
forcelist statuses — a non-forcelist status such as 404 comes back from
`session.get` after exactly one physical request with no sleep; but
`get_file_response`'s outer loop catches the resulting `HTTPError` like
any `RequestException`, so a constant-404 server sees `retries + 1`
physical requests with outer backoff sleeps `b*2^0, ..., b*2^(retries-1)`
before the `HTTPError` finally surfaces. -/
theorem C7_retry_classes :
    (∀ (server : Nat → Outcome) (b : ℚ) (r consec i st : Nat)
      (content : List Nat), server i = .resp st content →
      st ∉ STATUS_FORCELIST →
      sessionGet server b r consec i = ⟨.ok (st, content), i + 1, []⟩)
  ∧ (∀ (b : ℚ) (retries : Nat),
      get_file_response server404 retries b =
        ⟨.error (.httpError 404), retries + 1,
          (List.range retries).map (fun k => b * 2 ^ k)⟩) := by
  constructor
  · exact sessionGet_pass
  · intro b retries
    have h := gfrLoop_404 b retries retries 0 0
    rw [get_file_response, h, List.range_eq_range']
    simp

/-- Witness for C7 amended at concrete inputs. -/
theorem C7_retry_classes_witness :
    (server404 0 = .resp 404 [] ∧ 404 ∉ STATUS_FORCELIST
      ∧ sessionGet server404 1 3 0 0 = ⟨.ok (404, []), 1, []⟩)
  ∧ get_file_response server404 1 2 =
      ⟨.error (.httpError 404), 2, [2]⟩ := by
  refine ⟨⟨rfl, by decide, ?_⟩, ?_⟩
  · exact C7_retry_classes.1 server404 1 3 0 0 404 [] rfl (by decide)
  · have h := C7_retry_classes.2 2 1
    rw [h]
    have h3 : List.range 1 = [0] := rfl
    rw [h3]
    norm_num

/-- C8 as stated is violated: a request failing with 503 twice and
succeeding on the third attempt does return the successful response after
exactly 3 physical requests, but the retries happen inside urllib3, whose
backoff schedule sleeps 0 before the first retry and `2b` before the
second — not `b` then `2b` as claimed (with b = 1: sleeps [0, 2], and the
first sleep 0 ≠ 1 = b * 2^0). -/
theorem C8_counterexample :
    get_file_response server503Twice 3 1 = ⟨.ok (200, [7]), 3, [0, 2]⟩
  ∧ ((0 : ℚ) ≠ 1 * 2 ^ 0) := by
  constructor
  · norm_num [get_file_response, gfrLoop, gfrStep, sessionGet,
      server503Twice, STATUS_FORCELIST, raiseForStatus, urBackoffTime]
  · norm_num

/-- C8 amended: with `retries ≥ 2`, the 503-503-success scenario returns
the successful response after exactly 3 physical requests, the sleeps
being urllib3's schedule `[0, urBackoffTime b 2]` (where
`urBackoffTime b 2 = 2b` for any backoff base with `0 ≤ b` and
`2b ≤ 120`, the first retry sleeping 0); and on a persistently failing
503 server the final failure is raised only after both retry layers are
exhausted — with the defaults retries=3, backoff=1 that is 16 physical
requests and the interleaved sleep schedule shown, not `retries`
retries. -/
theorem C8_backoff_schedule :
    (∀ (b : ℚ) (r : Nat),
      get_file_response server503Twice (r + 2) b =
        ⟨.ok (200, [7]), 3, [0, urBackoffTime b 2]⟩)
  ∧ (∀ b : ℚ, 0 ≤ b → 2 * b ≤ 120 → urBackoffTime b 2 = 2 * b)
  ∧ get_file_response server503 3 1 =
      ⟨.error .retryError, 16,
        [0, 2, 4, 1, 0, 2, 4, 2, 0, 2, 4, 4, 0, 2, 4]⟩ := by
  refine ⟨?_, ?_, ?_⟩
  · intro b r
    rw [get_file_response]
    show gfrLoop server503Twice b (r + 2) (r + 1 + 1) 0 0 = _
    simp only [gfrLoop, gfrStep, sessionGet_503twice b r, raiseForStatus]
    norm_num
  · intro b hb h120
    unfold urBackoffTime
    rw [if_neg (by omega)]
    have : b * 2 ^ (2 - 1) = 2 * b := by ring
    rw [this, min_eq_right (by linarith), max_eq_right (by linarith)]
  · norm_num [get_file_response, gfrLoop, gfrStep, sessionGet, server503,
      STATUS_FORCELIST, raiseForStatus, urBackoffTime]

/-- Witness for C8 amended at concrete inputs. -/
theorem C8_backoff_schedule_witness :
    get_file_response server503Twice 4 1 = ⟨.ok (200, [7]), 3, [0, 2]⟩
  ∧ ((0 : ℚ) ≤ 1 ∧ (2 : ℚ) * 1 ≤ 120 ∧ urBackoffTime 1 2 = 2 * 1) := by
  constructor
  · have h := C8_backoff_schedule.1 1 2
    rw [h]
    norm_num [urBackoffTime]
  · exact ⟨by norm_num, by norm_num,
      C8_backoff_schedule.2.1 1 (by norm_num) (by norm_num)⟩

theorem collect_error (net : Net) : ∀ (o : List String),
    (∃ f ∈ o, ∃ e, (parse_single_file net f).1 = .error e) →
    ∃ e, (collectShardHeaders net o).1 = .error e := by
  intro o
  induction o with
  | nil =>
    rintro ⟨f, hf, _⟩
    simp at hf
  | cons f rest ih =>
    rintro ⟨g, hg, e, hge⟩
    rcases hps : parse_single_file net f with ⟨r, tr⟩
    rcases hcs : collectShardHeaders net rest with ⟨rs, trs⟩
    simp only [collectShardHeaders, hps, hcs]
    cases r with
    | error e1 => exact ⟨e1, rfl⟩
    | ok h =>
      rcases List.mem_cons.mp hg with rfl | hg'
      · rw [hps] at hge
        simp only at hge
        cases hge
      · obtain ⟨e2, he2⟩ := ih ⟨g, hg', e, hge⟩
        rw [hcs] at he2
        simp only at he2
        cases rs with
        | error e3 => exact ⟨e3, rfl⟩
        | ok hs => cases he2

theorem collect_ok (net : Net) : ∀ (o : List String),
    (∀ f ∈ o, ∃ h, (parse_single_file net f).1 = .ok h) →
    ∃ hs, (collectShardHeaders net o).1 = .ok hs
      ∧ (∀ x hx, x ∈ o → (parse_single_file net x).1 = .ok hx →
          hs.lookup x = some hx)
      ∧ (∀ x, x ∉ o → hs.lookup x = none) := by
  intro o
  induction o with
  | nil =>
    intro _
    exact ⟨[], rfl, fun x hx hmem => by simp at hmem, fun x _ => rfl⟩
  | cons f rest ih =>
    intro hall
    obtain ⟨h, hfh⟩ := hall f (by simp)
    obtain ⟨hs, hok, hlk1, hlk2⟩ := ih (fun g hg => hall g (by simp [hg]))
    rcases hps : parse_single_file net f with ⟨r, tr⟩
    rcases hcs : collectShardHeaders net rest with ⟨rs, trs⟩
    rw [hps] at hfh
    rw [hcs] at hok
    simp only at hfh hok
    subst hfh
    subst hok
    refine ⟨(f, h) :: hs, ?_, ?_, ?_⟩
    · simp only [collectShardHeaders, hps, hcs]
    · intro x hx hmem hxok
      by_cases hxf : x = f
      · subst hxf
        rw [hps] at hxok
        simp only at hxok
        cases hxok
        simp [List.lookup]
      · have hb : (x == f) = false := beq_eq_false_iff_ne.mpr hxf
        simp only [List.lookup, hb]
        have hxmem : x ∈ rest := by
          rcases List.mem_cons.mp hmem with h' | h'
          · exact absurd h' hxf
          · exact h'
        exact hlk1 x hx hxmem hxok
    · intro x hnx
      simp only [List.mem_cons, not_or] at hnx
      have hb : (x == f) = false := beq_eq_false_iff_ne.mpr hnx.1
      simp only [List.lookup, hb]
      exact hlk2 x hnx.2

theorem buildSharded_congr : ∀ (wm : List (String × String))
    (h₁ h₂ : List (String × Hdr)),
    (∀ f ∈ wm.map Prod.snd, h₁.lookup f = h₂.lookup f) →
    buildSharded wm h₁ = buildSharded wm h₂ := by
  intro wm
  induction wm with
  | nil =>
    intro h₁ h₂ _
    rfl
  | cons q rest ih =>
    intro h₁ h₂ hagree
    obtain ⟨n, f⟩ := q
    rw [buildSharded_cons, buildSharded_cons,
      hagree f (by simp), ih h₁ h₂ (fun g hg => hagree g (by simp [hg]))]

theorem shardedAttempt_fixed (net : Net) (o : List String) (bs : List Nat)
    (doc : IndexDoc) (wm : List (String × String))
    (hnet : net SAFETENSORS_INDEX_FILE none = .ok bs)
    (hj : jsonLoadsIndex bs = .ok doc)
    (hl : doc.lookup "weight_map" = some wm) :
    (shardedAttempt net o).1 =
      match (collectShardHeaders net o).1 with
      | .error e => .error e
      | .ok headers => buildSharded wm headers := by
  rcases hcs : collectShardHeaders net o with ⟨rs, trs⟩
  simp only [shardedAttempt, parse_sharded_index, hnet, hj, hl, hcs]
  cases rs with
  | error e => rfl
  | ok headers => simp [hl]

theorem gml_congr (net : Net) (o₁ o₂ : List String)
    (h : (shardedAttempt net o₁).1 = (shardedAttempt net o₂).1) :
    (get_model_layers net o₁).1 = (get_model_layers net o₂).1 := by
  rcases h₁ : shardedAttempt net o₁ with ⟨a₁, t₁⟩
  rcases h₂ : shardedAttempt net o₂ with ⟨a₂, t₂⟩
  rw [h₁, h₂] at h
  simp only at h
  subst h
  simp only [get_model_layers, h₁, h₂]
  cases a₁ <;> rfl

theorem gml_both_error (net : Net) (o₁ o₂ : List String) (e₁ e₂ : Exn)
    (h₁ : (shardedAttempt net o₁).1 = .error e₁)
    (h₂ : (shardedAttempt net o₂).1 = .error e₂) :
    (get_model_layers net o₁).1 = (get_model_layers net o₂).1 := by
  rcases hs₁ : shardedAttempt net o₁ with ⟨a₁, t₁⟩
  rcases hs₂ : shardedAttempt net o₂ with ⟨a₂, t₂⟩
  rw [hs₁] at h₁
  rw [hs₂] at h₂
  simp only at h₁ h₂
  subst h₁
  subst h₂
  simp only [get_model_layers, hs₁, hs₂]

/-- C9: with a fixed index (fetched and parsed to a weight map `wm`) and
fixed deterministic per-shard responses, the run's catalog is identical
for any two completion orders of the dispatched shard set — concurrency
level and completion order cannot affect the result; and the dispatched
set `sorted(set(weight_map.values()))` is strictly sorted, duplicate-free,
and contains exactly the filenames referenced by `weight_map`. -/
theorem C9_order_independent :
    (∀ (net : Net) (o₁ o₂ : List String) (bs : List Nat) (doc : IndexDoc)
      (wm : List (String × String)),
      net SAFETENSORS_INDEX_FILE none = .ok bs →
      jsonLoadsIndex bs = .ok doc →
      doc.lookup "weight_map" = some wm →
      o₁.Perm (shardFilesOf wm) → o₂.Perm (shardFilesOf wm) →
      (get_model_layers net o₁).1 = (get_model_layers net o₂).1)
  ∧ (∀ wm : List (String × String),
      (shardFilesOf wm).Pairwise (fun a b => strLt a b = true)
      ∧ (shardFilesOf wm).Nodup
      ∧ (∀ x, x ∈ shardFilesOf wm ↔ x ∈ wm.map Prod.snd)) := by
  constructor
  · intro net o₁ o₂ bs doc wm hnet hj hl hp₁ hp₂
    have ha₁ := shardedAttempt_fixed net o₁ bs doc wm hnet hj hl
    have ha₂ := shardedAttempt_fixed net o₂ bs doc wm hnet hj hl
    by_cases hall : ∀ f ∈ shardFilesOf wm, ∃ h,
        (parse_single_file net f).1 = .ok h
    · obtain ⟨hs₁, hok₁, hfind₁, _⟩ :=
        collect_ok net o₁ (fun f hf => hall f (hp₁.mem_iff.mp hf))
      obtain ⟨hs₂, hok₂, hfind₂, _⟩ :=
        collect_ok net o₂ (fun f hf => hall f (hp₂.mem_iff.mp hf))
      have hb : buildSharded wm hs₁ = buildSharded wm hs₂ := by
        refine buildSharded_congr wm hs₁ hs₂ (fun f hf => ?_)
        have hfs : f ∈ shardFilesOf wm := mem_sortedDedup.mpr hf
        obtain ⟨h, hokf⟩ := hall f hfs
        rw [hfind₁ f h (hp₁.mem_iff.mpr hfs) hokf,
            hfind₂ f h (hp₂.mem_iff.mpr hfs) hokf]
      apply gml_congr
      rw [ha₁, ha₂, hok₁, hok₂]
      exact hb
    · push_neg at hall
      obtain ⟨f, hfs, hnone⟩ := hall
      have hfe : ∃ e, (parse_single_file net f).1 = .error e := by
        rcases hE : (parse_single_file net f).1 with e | h
        · exact ⟨e, rfl⟩
        · exact absurd hE (hnone h)
      obtain ⟨e₁, he₁⟩ := collect_error net o₁ ⟨f, hp₁.mem_iff.mpr hfs, hfe⟩
      obtain ⟨e₂, he₂⟩ := collect_error net o₂ ⟨f, hp₂.mem_iff.mpr hfs, hfe⟩
      refine gml_both_error net o₁ o₂ e₁ e₂ ?_ ?_
      · rw [ha₁, he₁]
      · rw [ha₂, he₂]
  · intro wm
    exact ⟨sortedDedup_pairwise _, sortedDedup_nodup _,
      fun x => mem_sortedDedup⟩

/-- Witness for C9: the two-shard network with the two completion orders
`["s2", "s1"]` and `["s1", "s2"]`. -/
theorem C9_order_independent_witness :
    netTwo SAFETENSORS_INDEX_FILE none = .ok (encIndex idxDocTwo)
  ∧ jsonLoadsIndex (encIndex idxDocTwo) = .ok idxDocTwo
  ∧ idxDocTwo.lookup "weight_map" =
      some [("a.weight", "s2"), ("b.weight", "s1"), ("c.weight", "s1")]
  ∧ (["s2", "s1"].Perm (shardFilesOf
      [("a.weight", "s2"), ("b.weight", "s1"), ("c.weight", "s1")]))
  ∧ (["s1", "s2"].Perm (shardFilesOf
      [("a.weight", "s2"), ("b.weight", "s1"), ("c.weight", "s1")]))
  ∧ (get_model_layers netTwo ["s2", "s1"]).1 =
      (get_model_layers netTwo ["s1", "s2"]).1 := by
  refine ⟨by decide, by decide, by decide, by decide, by decide, ?_⟩
  exact C9_order_independent.1 netTwo ["s2", "s1"] ["s1", "s2"]
    (encIndex idxDocTwo) idxDocTwo
    [("a.weight", "s2"), ("b.weight", "s1"), ("c.weight", "s1")]
    (by decide) (by decide) (by decide) (by decide) (by decide)

end ModelInspect
